import Mathlib

/-!
Verification of the I2CCmd AVR I2C driver (Src/I2C.c) against its design
specification. The driver keeps a single transfer descriptor (the static
struct `I2C`), exposes non-blocking submission functions `PutI2C`/`GetI2C`,
and advances each bus transaction from the TWI interrupt handler
`ISR(TWI_vect)`, one hardware bus-condition event at a time.

The embedding below models the descriptor as a Lean structure, the caller
buffer as a list of bytes with an explicit cursor, and every hardware
control-register side effect of the interrupt handler (START, STOP, step,
acknowledge-enable set/clear, data-register writes) as an emitted action,
so that theorems can speak both about descriptor updates and about the
exact control actions each transition performs.
-/

/-- Status codes of the driver, from the `I2C_STATUS` enum in Src/I2C.h. -/
inductive I2C_STATUS where
  | COMPLETE
  | WORKING
  | NO_SLAVE_ACK
  | SLAVE_DATA_NACK
  | REP_START
  | ARB_LOST
  | BUS_ERROR
deriving DecidableEq, Repr

/-- The transfer descriptor: the static `I2C` struct of Src/I2C.c.
`Buffer` is the caller buffer contents and `BufPos` the cursor
(`I2C.Buffer` is a pointer in C; here it is an index into the list). -/
structure I2CState where
  SlaveAddr : Nat
  nBytes : Nat
  Buffer : List Nat
  BufPos : Nat
  NoStop : Bool
  Status : I2C_STATUS
deriving DecidableEq, Repr

/-- Hardware control actions the interrupt handler can issue:
`START_I2C`, `STOP_I2C`, `STEP_I2C`, set/clear of TWEA (acknowledge
enable), clearing TWSTA, and a write to the TWDR data register. -/
inductive HWAction where
  | start
  | stop
  | step
  | setAck
  | clearAck
  | clearStart
  | writeData (b : Nat)
deriving DecidableEq, Repr

/-- TWSR bus-condition codes (prescaler bits masked off), from Src/I2C.c. -/
def TW_START : Nat := 0x08

def TW_REP_START : Nat := 0x10

def TW_ARB_LOST : Nat := 0x38

def TW_MT_SLA_ACK : Nat := 0x18

def TW_MT_SLA_NACK : Nat := 0x20

def TW_MT_DATA_ACK : Nat := 0x28

def TW_MT_DATA_NACK : Nat := 0x30

def TW_MR_SLA_ACK : Nat := 0x40

def TW_MR_SLA_NACK : Nat := 0x48

def TW_MR_DATA_ACK : Nat := 0x50

def TW_MR_DATA_NACK : Nat := 0x58

def TW_BUS_ERROR : Nat := 0x00

/-- Decrement of the uint8 field `I2C.nBytes` (`I2C.nBytes--` in C):
8-bit wraparound subtraction by one. -/
def dec8 (n : Nat) : Nat := (n + 255) % 256

/-- `I2CInit` (Src/I2C.c:175): zeroes the descriptor with `memset`, then
sets `I2C.Status = I2C_COMPLETE`. Hardware clock/pullup configuration has
no effect on the descriptor and is omitted. -/
def I2CInit : I2CState :=
  { SlaveAddr := 0, nBytes := 0, Buffer := [], BufPos := 0,
    NoStop := false, Status := I2C_STATUS.COMPLETE }

/-- `PutI2C` (Src/I2C.c:236): arms the descriptor for a block write.
`I2C.SlaveAddr = SlaveAddr << 1` (uint8 truncation), direction bit clear. -/
def PutI2C (s : I2CState) (SlaveAddr nBytes : Nat) (Buffer : List Nat)
    (NoStop : Bool) : I2CState :=
  { s with
    SlaveAddr := (SlaveAddr <<< 1) % 256,
    nBytes := nBytes % 256,
    Buffer := Buffer,
    BufPos := 0,
    Status := I2C_STATUS.WORKING,
    NoStop := NoStop }

/-- `GetI2C` (Src/I2C.c:264): arms the descriptor for a block read.
`I2C.SlaveAddr = (SlaveAddr << 1) | 1` (uint8 truncation); note that the
`NoStop` field is NOT assigned by this function. -/
def GetI2C (s : I2CState) (SlaveAddr nBytes : Nat) (Buffer : List Nat) :
    I2CState :=
  { s with
    SlaveAddr := ((SlaveAddr <<< 1) ||| 1) % 256,
    nBytes := nBytes % 256,
    Buffer := Buffer,
    BufPos := 0,
    Status := I2C_STATUS.WORKING }

/-- `I2CBusy` (Src/I2C.c:290): true iff the descriptor status is WORKING. -/
def I2CBusy (s : I2CState) : Bool := s.Status = I2C_STATUS.WORKING

/-- `I2CStatus` (Src/I2C.c:301). -/
def I2CStatus (s : I2CState) : I2C_STATUS := s.Status

/-- One invocation of the interrupt handler `ISR(TWI_vect)`
(Src/I2C.c:314-493). `ev` is the masked TWSR bus-condition code and
`twdr` is the current content of the TWDR data register (used on
master-receiver data events). Returns the updated descriptor and the
list of hardware control actions issued, in program order. -/
def twiStep (s : I2CState) (ev : Nat) (twdr : Nat) : I2CState × List HWAction :=
  if ev = TW_START ∨ ev = TW_REP_START then
    (s, [HWAction.writeData s.SlaveAddr, HWAction.clearStart])
  else if ev = TW_MT_SLA_ACK ∨ ev = TW_MT_DATA_ACK then
    if s.nBytes = 0 then
      ({ s with Status := I2C_STATUS.COMPLETE },
       if s.NoStop then [] else [HWAction.stop])
    else
      ({ s with BufPos := s.BufPos + 1, nBytes := dec8 s.nBytes },
       [HWAction.writeData (s.Buffer.getD s.BufPos 0), HWAction.step])
  else if ev = TW_MT_SLA_NACK ∨ ev = TW_MR_SLA_NACK then
    ({ s with Status := I2C_STATUS.NO_SLAVE_ACK }, [HWAction.stop])
  else if ev = TW_MT_DATA_NACK then
    ({ s with Status := I2C_STATUS.SLAVE_DATA_NACK }, [HWAction.stop])
  else if ev = TW_ARB_LOST then
    ({ s with Status := I2C_STATUS.ARB_LOST }, [HWAction.step])
  else if ev = TW_MR_SLA_ACK then
    if s.nBytes = 0 then
      ({ s with Status := I2C_STATUS.COMPLETE }, [HWAction.stop])
    else if s.nBytes = 1 then
      (s, [HWAction.clearAck, HWAction.step])
    else
      (s, [HWAction.setAck, HWAction.step])
  else if ev = TW_MR_DATA_ACK ∨ ev = TW_MR_DATA_NACK then
    let s1 := { s with
                Buffer := s.Buffer.set s.BufPos (twdr % 256),
                BufPos := s.BufPos + 1,
                nBytes := dec8 s.nBytes }
    let ackActs := if s1.nBytes = 1 then [HWAction.clearAck] else []
    if s1.nBytes = 0 then
      ({ s1 with Status := I2C_STATUS.COMPLETE }, ackActs ++ [HWAction.stop])
    else
      (s1, ackActs ++ [HWAction.step])
  else if ev = TW_BUS_ERROR then
    ({ s with Status := I2C_STATUS.BUS_ERROR }, [HWAction.stop])
  else
    (s, [])

/-- Run the interrupt state machine over a sequence of
(bus-condition code, TWDR content) events, returning the final
descriptor state. -/
def twiRun (s : I2CState) : List (Nat × Nat) → I2CState
  | [] => s
  | (e, d) :: rest => twiRun (twiStep s e d).1 rest

/-- The bus-condition codes the `switch` of `ISR(TWI_vect)` handles;
every other code falls past the switch and the handler returns. -/
def handledCode (ev : Nat) : Bool :=
  ev = TW_START ∨ ev = TW_REP_START ∨ ev = TW_MT_SLA_ACK ∨
  ev = TW_MT_DATA_ACK ∨ ev = TW_MT_SLA_NACK ∨ ev = TW_MR_SLA_NACK ∨
  ev = TW_MT_DATA_NACK ∨ ev = TW_ARB_LOST ∨ ev = TW_MR_SLA_ACK ∨
  ev = TW_MR_DATA_ACK ∨ ev = TW_MR_DATA_NACK ∨ ev = TW_BUS_ERROR

/-- Terminal status values: every status except WORKING and the never
assigned REP_START marker. -/
def terminalStatus (st : I2C_STATUS) : Bool :=
  st = I2C_STATUS.COMPLETE ∨ st = I2C_STATUS.NO_SLAVE_ACK ∨
  st = I2C_STATUS.SLAVE_DATA_NACK ∨ st = I2C_STATUS.ARB_LOST ∨
  st = I2C_STATUS.BUS_ERROR

/-- Overwrite the list `l` starting at index `i` with the bytes `bs`
(the effect of the master-receiver data phase on the caller buffer). -/
def writeAt (l : List Nat) (i : Nat) : List Nat → List Nat
  | [] => l
  | b :: bs => writeAt (l.set i b) (i + 1) bs

/-- A sample descriptor state used to instantiate witnesses. -/
def sampleState : I2CState :=
  { SlaveAddr := 0x42, nBytes := 0, Buffer := [0, 0, 0], BufPos := 0,
    NoStop := false, Status := I2C_STATUS.WORKING }

/-- C3: PutI2C sets the slave address byte to (a << 1) with direction
bit 0 (write); GetI2C sets it to (a << 1) | 1 (read), for every 7-bit
address. -/
theorem submit_sets_address_direction (s : I2CState) (a n m : Nat)
    (buf buf2 : List Nat) (ns : Bool) (ha : a < 128) :
    (PutI2C s a n buf ns).SlaveAddr = (a <<< 1) ||| 0 ∧
    (GetI2C s a m buf2).SlaveAddr = (a <<< 1) ||| 1 := by
  have key1 : ∀ x, x < 128 → (x <<< 1) % 256 = (x <<< 1) ||| 0 := by decide
  have key2 : ∀ x, x < 128 → ((x <<< 1) ||| 1) % 256 = (x <<< 1) ||| 1 := by
    decide
  exact ⟨key1 a ha, key2 a ha⟩

/-- C3 witness at a concrete address. -/
theorem submit_sets_address_direction_witness :
    (PutI2C sampleState 0x50 1 [7] false).SlaveAddr = (0x50 <<< 1) ||| 0 ∧
    (GetI2C sampleState 0x50 1 [0]).SlaveAddr = (0x50 <<< 1) ||| 1 :=
  submit_sets_address_direction sampleState 0x50 1 1 [7] [0] false (by decide)

/-- C4: a read submitted with byte count 0 completes at the
address-ACK(read) event: status becomes COMPLETE and STOP is the only
action issued; no buffer write, no acknowledge-enable change, no
step/continue, and the remaining count stays 0. -/
theorem zero_byte_read_completes_at_sla_ack (s t : I2CState)
    (a d1 d2 d3 : Nat) (buf : List Nat) (h : t.nBytes = 0) :
    twiStep t TW_MR_SLA_ACK d3 =
      ({ t with Status := I2C_STATUS.COMPLETE }, [HWAction.stop]) ∧
    twiRun (GetI2C s a 0 buf) [(TW_START, d1), (TW_MR_SLA_ACK, d2)] =
      { GetI2C s a 0 buf with Status := I2C_STATUS.COMPLETE } := by
  constructor
  · simp [twiStep, TW_MR_SLA_ACK, TW_START, TW_REP_START, TW_MT_SLA_ACK,
      TW_MT_DATA_ACK, TW_MT_SLA_NACK, TW_MR_SLA_NACK, TW_MT_DATA_NACK,
      TW_ARB_LOST, h]
  · simp [twiRun, twiStep, GetI2C, TW_MR_SLA_ACK, TW_START, TW_REP_START,
      TW_MT_SLA_ACK, TW_MT_DATA_ACK, TW_MT_SLA_NACK, TW_MR_SLA_NACK,
      TW_MT_DATA_NACK, TW_ARB_LOST]

/-- C4 witness at a concrete zero-count descriptor. -/
theorem zero_byte_read_completes_at_sla_ack_witness :
    twiStep sampleState TW_MR_SLA_ACK 0 =
      ({ sampleState with Status := I2C_STATUS.COMPLETE }, [HWAction.stop]) ∧
    twiRun (GetI2C sampleState 0x29 0 [9]) [(TW_START, 0), (TW_MR_SLA_ACK, 0)] =
      { GetI2C sampleState 0x29 0 [9] with Status := I2C_STATUS.COMPLETE } :=
  zero_byte_read_completes_at_sla_ack sampleState sampleState 0x29 0 0 0 [9]
    (by decide)

/-- C5: an address-phase NACK (write or read) transitions directly to
NO_SLAVE_ACK and issues STOP only; the buffer, cursor and remaining
count are untouched and no data-register action occurs. -/
theorem address_nack_short_circuit (s : I2CState) (ev d : Nat)
    (hev : ev = TW_MT_SLA_NACK ∨ ev = TW_MR_SLA_NACK) :
    twiStep s ev d =
      ({ s with Status := I2C_STATUS.NO_SLAVE_ACK }, [HWAction.stop]) ∧
    (twiStep s ev d).1.Buffer = s.Buffer ∧
    (twiStep s ev d).1.nBytes = s.nBytes ∧
    (twiStep s ev d).1.BufPos = s.BufPos := by
  rcases hev with h | h <;> subst h <;>
    simp [twiStep, TW_MT_SLA_NACK, TW_MR_SLA_NACK, TW_START, TW_REP_START,
      TW_MT_SLA_ACK, TW_MT_DATA_ACK]

/-- C5 witness for both NACK codes is taken at the write-direction code. -/
theorem address_nack_short_circuit_witness :
    twiStep sampleState TW_MT_SLA_NACK 0 =
      ({ sampleState with Status := I2C_STATUS.NO_SLAVE_ACK },
        [HWAction.stop]) ∧
    (twiStep sampleState TW_MT_SLA_NACK 0).1.Buffer = sampleState.Buffer ∧
    (twiStep sampleState TW_MT_SLA_NACK 0).1.nBytes = sampleState.nBytes ∧
    (twiStep sampleState TW_MT_SLA_NACK 0).1.BufPos = sampleState.BufPos :=
  address_nack_short_circuit sampleState TW_MT_SLA_NACK 0 (Or.inl rfl)

/-- C6: an arbitration-lost event sets ARB_LOST and only steps the
hardware; it never issues STOP, and the remaining count and cursor are
unchanged. -/
theorem arb_lost_no_stop (s : I2CState) (d : Nat) :
    twiStep s TW_ARB_LOST d =
      ({ s with Status := I2C_STATUS.ARB_LOST }, [HWAction.step]) ∧
    HWAction.stop ∉ (twiStep s TW_ARB_LOST d).2 ∧
    (twiStep s TW_ARB_LOST d).1.nBytes = s.nBytes ∧
    (twiStep s TW_ARB_LOST d).1.BufPos = s.BufPos := by
  simp [twiStep, TW_ARB_LOST, TW_START, TW_REP_START, TW_MT_SLA_ACK,
    TW_MT_DATA_ACK, TW_MT_SLA_NACK, TW_MR_SLA_NACK, TW_MT_DATA_NACK]

/-- C10: every bus-condition code outside the handled master-mode set
(all the slave-mode codes, the no-information code 0xF8, and any other
value) leaves the descriptor completely unchanged and issues no
hardware action. -/
theorem unhandled_codes_are_noops (s : I2CState) (ev d : Nat)
    (h : handledCode ev = false) : twiStep s ev d = (s, []) := by
  unfold handledCode at h
  simp only [decide_eq_false_iff_not] at h
  push_neg at h
  obtain ⟨h1, h2, h3, h4, h5, h6, h7, h8, h9, h10, h11, h12⟩ := h
  simp [twiStep, h1, h2, h3, h4, h5, h6, h7, h8, h9, h10, h11, h12]

/-- C10 witness at the slave-receiver address-ACK code 0x60. -/
theorem unhandled_codes_are_noops_witness :
    twiStep sampleState 0x60 0 = (sampleState, []) :=
  unhandled_codes_are_noops sampleState 0x60 0 (by decide)

/-- A sample in-flight write descriptor (two bytes pending) for witnesses. -/
def sampleWrite : I2CState :=
  { SlaveAddr := 0xA0, nBytes := 2, Buffer := [0x11, 0x22], BufPos := 0,
    NoStop := false, Status := I2C_STATUS.WORKING }

/-- A sample in-flight read descriptor (one byte pending) for witnesses. -/
def sampleRead : I2CState :=
  { SlaveAddr := 0xA1, nBytes := 1, Buffer := [0], BufPos := 0,
    NoStop := true, Status := I2C_STATUS.WORKING }

/-- C2: at an address-ACK(write) or data-ACK(write) event, a descriptor
with remaining count 0 goes to COMPLETE with STOP issued unless NoStop
is set (then no action at all); with a positive remaining count the
next buffer byte is written to the data register, the cursor advances,
the count decrements and the status is unchanged. A zero-byte write
therefore completes at the address-ACK with no data transferred and
remaining count 0. -/
theorem write_step_and_zero_byte_write (s t u : I2CState) (ev d e a : Nat)
    (buf : List Nat) (ns : Bool)
    (hev : ev = TW_MT_SLA_ACK ∨ ev = TW_MT_DATA_ACK)
    (h0 : t.nBytes = 0) (h1 : 0 < u.nBytes) (h2 : u.nBytes < 256) :
    twiStep t ev d =
      ({ t with Status := I2C_STATUS.COMPLETE },
       if t.NoStop then [] else [HWAction.stop]) ∧
    twiStep u ev e =
      ({ u with BufPos := u.BufPos + 1, nBytes := u.nBytes - 1 },
       [HWAction.writeData (u.Buffer.getD u.BufPos 0), HWAction.step]) ∧
    twiRun (PutI2C s a 0 buf ns) [(TW_START, 0), (TW_MT_SLA_ACK, 0)] =
      { PutI2C s a 0 buf ns with Status := I2C_STATUS.COMPLETE } := by
  have hne : u.nBytes ≠ 0 := by omega
  have hd : dec8 u.nBytes = u.nBytes - 1 := by unfold dec8; omega
  refine ⟨?_, ?_, ?_⟩
  · rcases hev with h | h <;> subst h <;>
      simp [twiStep, TW_MT_SLA_ACK, TW_MT_DATA_ACK, TW_START, TW_REP_START,
        h0]
  · rcases hev with h | h <;> subst h <;>
      simp [twiStep, TW_MT_SLA_ACK, TW_MT_DATA_ACK, TW_START, TW_REP_START,
        hne, hd]
  · simp [twiRun, twiStep, PutI2C, TW_MT_SLA_ACK, TW_MT_DATA_ACK, TW_START,
      TW_REP_START]

/-- C2 witness: address-ACK on a zero-count and on a two-byte write. -/
theorem write_step_and_zero_byte_write_witness :
    twiStep sampleState TW_MT_SLA_ACK 0 =
      ({ sampleState with Status := I2C_STATUS.COMPLETE },
       if sampleState.NoStop then [] else [HWAction.stop]) ∧
    twiStep sampleWrite TW_MT_SLA_ACK 0 =
      ({ sampleWrite with BufPos := 1, nBytes := 1 },
       [HWAction.writeData 0x11, HWAction.step]) ∧
    twiRun (PutI2C sampleState 0x2A 0 [5] false)
        [(TW_START, 0), (TW_MT_SLA_ACK, 0)] =
      { PutI2C sampleState 0x2A 0 [5] false with
        Status := I2C_STATUS.COMPLETE } :=
  write_step_and_zero_byte_write sampleState sampleState sampleWrite
    TW_MT_SLA_ACK 0 0 0x2A [5] false (Or.inl rfl) (by decide) (by decide)
    (by decide)

/-- C9: GetI2C does not assign the NoStop field, so a read submitted
after a write with NoStop true still carries NoStop true; nevertheless
every read-path completion issues STOP, because no master-receiver
transition of the state machine consults NoStop (the emitted actions
are identical for NoStop true and false). -/
theorem getI2C_preserves_nostop_and_read_ignores_it
    (s t : I2CState) (a n a2 n2 d : Nat) (buf buf2 : List Nat)
    (h1 : t.nBytes = 1) :
    (GetI2C s a2 n2 buf2).NoStop = s.NoStop ∧
    (GetI2C (PutI2C s a n buf true) a2 n2 buf2).NoStop = true ∧
    HWAction.stop ∈ (twiStep { t with nBytes := 0 } TW_MR_SLA_ACK d).2 ∧
    HWAction.stop ∈ (twiStep t TW_MR_DATA_ACK d).2 ∧
    HWAction.stop ∈ (twiStep t TW_MR_DATA_NACK d).2 ∧
    (twiStep { t with NoStop := true } TW_MR_SLA_ACK d).2 =
      (twiStep { t with NoStop := false } TW_MR_SLA_ACK d).2 ∧
    (twiStep { t with NoStop := true } TW_MR_DATA_ACK d).2 =
      (twiStep { t with NoStop := false } TW_MR_DATA_ACK d).2 := by
  refine ⟨rfl, rfl, ?_, ?_, ?_, ?_, ?_⟩ <;>
    simp [twiStep, dec8, TW_MR_SLA_ACK, TW_MR_DATA_ACK, TW_MR_DATA_NACK,
      TW_START, TW_REP_START, TW_MT_SLA_ACK, TW_MT_DATA_ACK, TW_MT_SLA_NACK,
      TW_MR_SLA_NACK, TW_MT_DATA_NACK, TW_ARB_LOST, h1]

/-- C9 witness: stale NoStop from a preceding write, one-byte read. -/
theorem getI2C_preserves_nostop_and_read_ignores_it_witness :
    (GetI2C sampleState 0x51 1 [0]).NoStop = sampleState.NoStop ∧
    (GetI2C (PutI2C sampleState 0x50 1 [7] true) 0x51 1 [0]).NoStop = true ∧
    HWAction.stop ∈ (twiStep { sampleRead with nBytes := 0 }
      TW_MR_SLA_ACK 0x33).2 ∧
    HWAction.stop ∈ (twiStep sampleRead TW_MR_DATA_ACK 0x33).2 ∧
    HWAction.stop ∈ (twiStep sampleRead TW_MR_DATA_NACK 0x33).2 ∧
    (twiStep { sampleRead with NoStop := true } TW_MR_SLA_ACK 0x33).2 =
      (twiStep { sampleRead with NoStop := false } TW_MR_SLA_ACK 0x33).2 ∧
    (twiStep { sampleRead with NoStop := true } TW_MR_DATA_ACK 0x33).2 =
      (twiStep { sampleRead with NoStop := false } TW_MR_DATA_ACK 0x33).2 :=
  getI2C_preserves_nostop_and_read_ignores_it sampleState sampleRead
    0x50 1 0x51 1 0x33 [7] [0] (by decide)

/-- Any single interrupt-handler transition either leaves the status
unchanged or assigns one of the terminal values. -/
theorem twiStep_status (s : I2CState) (ev d : Nat) :
    (twiStep s ev d).1.Status = s.Status ∨
    terminalStatus (twiStep s ev d).1.Status = true := by
  unfold twiStep
  split_ifs <;> simp [terminalStatus] <;> split_ifs <;> simp

/-- Along any run of the interrupt state machine, a status that starts
as WORKING or terminal stays WORKING or terminal. -/
theorem twiRun_status (evs : List (Nat × Nat)) : ∀ s : I2CState,
    s.Status = I2C_STATUS.WORKING ∨ terminalStatus s.Status = true →
    (twiRun s evs).Status = I2C_STATUS.WORKING ∨
      terminalStatus (twiRun s evs).Status = true := by
  induction evs with
  | nil => exact fun s h => h
  | cons e rest ih =>
    intro s h
    obtain ⟨ev, d⟩ := e
    show (twiRun (twiStep s ev d).1 rest).Status = I2C_STATUS.WORKING ∨ _
    apply ih
    rcases twiStep_status s ev d with h2 | h2
    · rw [h2]; exact h
    · exact Or.inr h2

/-- C7: submissions always set WORKING (and initialization COMPLETE);
terminal statuses arise only from interrupt state-machine transitions,
each of which either keeps the status or assigns a terminal value, so
after any submission the driver reads busy until some transition of
the state machine reaches a terminal status. -/
theorem terminal_only_from_isr (s t : I2CState) (a n a2 n2 ev d : Nat)
    (buf buf2 : List Nat) (ns : Bool) (evs : List (Nat × Nat)) :
    (PutI2C s a n buf ns).Status = I2C_STATUS.WORKING ∧
    (GetI2C s a2 n2 buf2).Status = I2C_STATUS.WORKING ∧
    I2CInit.Status = I2C_STATUS.COMPLETE ∧
    I2CBusy (PutI2C s a n buf ns) = true ∧
    I2CBusy (GetI2C s a2 n2 buf2) = true ∧
    ((twiStep t ev d).1.Status = t.Status ∨
      terminalStatus (twiStep t ev d).1.Status = true) ∧
    (I2CBusy (twiRun (PutI2C s a n buf ns) evs) = true ∨
      terminalStatus (twiRun (PutI2C s a n buf ns) evs).Status = true) ∧
    (I2CBusy (twiRun (GetI2C s a2 n2 buf2) evs) = true ∨
      terminalStatus (twiRun (GetI2C s a2 n2 buf2) evs).Status = true) := by
  refine ⟨rfl, rfl, rfl, by simp [I2CBusy, PutI2C], by simp [I2CBusy, GetI2C],
    twiStep_status t ev d, ?_, ?_⟩
  · have := twiRun_status evs (PutI2C s a n buf ns) (Or.inl rfl)
    simpa [I2CBusy] using this
  · have := twiRun_status evs (GetI2C s a2 n2 buf2) (Or.inl rfl)
    simpa [I2CBusy] using this

/-- C8: no transition of the interrupt state machine assigns the
REP_START status marker (every transition keeps the status or assigns
a terminal value, and REP_START is not terminal), so after any
submission a caller polling I2CStatus never observes REP_START. -/
theorem rep_start_never_assigned (t : I2CState) (ev d : Nat)
    (s : I2CState) (a n a2 n2 : Nat) (buf buf2 : List Nat) (ns : Bool)
    (evs : List (Nat × Nat)) :
    ((twiStep t ev d).1.Status = t.Status ∨
      terminalStatus (twiStep t ev d).1.Status = true) ∧
    terminalStatus I2C_STATUS.REP_START = false ∧
    I2CStatus (twiRun (PutI2C s a n buf ns) evs) ≠ I2C_STATUS.REP_START ∧
    I2CStatus (twiRun (GetI2C s a2 n2 buf2) evs) ≠ I2C_STATUS.REP_START := by
  refine ⟨twiStep_status t ev d, by decide, ?_, ?_⟩
  · rcases twiRun_status evs (PutI2C s a n buf ns) (Or.inl rfl) with h | h <;>
      · unfold I2CStatus
        intro hc
        rw [hc] at h
        simp [terminalStatus] at h
  · rcases twiRun_status evs (GetI2C s a2 n2 buf2) (Or.inl rfl) with h | h <;>
      · unfold I2CStatus
        intro hc
        rw [hc] at h
        simp [terminalStatus] at h

/-- Overwriting at index `i` equals splicing the new bytes between the
first `i` elements and the tail beyond the overwritten range. -/
theorem writeAt_eq (bs : List Nat) : ∀ (l : List Nat) (i : Nat),
    i + bs.length ≤ l.length →
    writeAt l i bs = l.take i ++ bs ++ l.drop (i + bs.length) := by
  induction bs with
  | nil =>
    intro l i h
    simp [writeAt, List.take_append_drop]
  | cons b bs ih =>
    intro l i h
    simp only [List.length_cons] at h
    have hi : i < l.length := by omega
    rw [writeAt, ih (l.set i b) (i + 1) (by simp; omega)]
    rw [List.set_eq_take_cons_drop b hi]
    have h1 : l.take i ++ b :: l.drop (i + 1) =
        (l.take i ++ [b]) ++ l.drop (i + 1) := by simp
    rw [h1]
    have hlen2 : (l.take i ++ [b]).length = i + 1 := by simp; omega
    have h2 : i + 1 + bs.length = (l.take i ++ [b]).length + bs.length := by
      omega
    rw [h2, List.drop_append bs.length, List.take_left' hlen2,
      List.drop_drop]
    have h3 : i + (b :: bs).length = i + 1 + bs.length := by
      simp
      omega
    rw [h3]
    simp

/-- Running the state machine over the full data phase of a read (one
master-receiver data event per supplied byte) stores the bytes at the
cursor in arrival order, advances the cursor past them, brings the
remaining count to 0 and marks the transfer COMPLETE. -/
theorem mrDataRun (bytes : List Nat) : ∀ s : I2CState,
    s.nBytes = bytes.length → 0 < bytes.length → bytes.length < 256 →
    (∀ x ∈ bytes, x < 256) →
    twiRun s (bytes.map fun x => (TW_MR_DATA_ACK, x)) =
      { s with Buffer := writeAt s.Buffer s.BufPos bytes,
               BufPos := s.BufPos + bytes.length, nBytes := 0,
               Status := I2C_STATUS.COMPLETE } := by
  induction bytes with
  | nil => intro s hn h0 hlt hb; simp at h0
  | cons b bs ih =>
    intro s hn h0 hlt hb
    simp only [List.length_cons] at hn hlt
    have hb0 : b % 256 = b := Nat.mod_eq_of_lt (hb b (by simp))
    have hd : dec8 s.nBytes = bs.length := by unfold dec8; omega
    have hne : s.nBytes ≠ 0 := by omega
    cases bs with
    | nil =>
      simp only [List.map_cons, List.map_nil]
      rw [twiRun, twiRun]
      simp only [List.length_nil] at hd
      simp [twiStep, TW_MR_DATA_ACK, TW_START, TW_REP_START, TW_MT_SLA_ACK,
        TW_MT_DATA_ACK, TW_MT_SLA_NACK, TW_MR_SLA_NACK, TW_MT_DATA_NACK,
        TW_ARB_LOST, TW_MR_SLA_ACK, TW_MR_DATA_NACK, TW_BUS_ERROR,
        hd, hb0, writeAt]
    | cons c cs =>
      simp only [List.map_cons]
      rw [twiRun]
      have hs1 : (twiStep s TW_MR_DATA_ACK b).1 =
          { s with
            Buffer := s.Buffer.set s.BufPos b,
            BufPos := s.BufPos + 1,
            nBytes := (c :: cs).length } := by
        simp [twiStep, TW_MR_DATA_ACK, TW_START, TW_REP_START, TW_MT_SLA_ACK,
          TW_MT_DATA_ACK, TW_MT_SLA_NACK, TW_MR_SLA_NACK, TW_MT_DATA_NACK,
          TW_ARB_LOST, TW_MR_SLA_ACK, TW_MR_DATA_NACK, TW_BUS_ERROR,
          hd, hb0]
      have hrec := ih
        { s with
          Buffer := s.Buffer.set s.BufPos b,
          BufPos := s.BufPos + 1,
          nBytes := (c :: cs).length }
        rfl (by simp) (by omega) (fun x hx => hb x (List.mem_cons_of_mem b hx))
      simp only [List.map_cons] at hrec
      rw [hs1, hrec]
      simp [writeAt, hb0]
      omega

/-- C1: for a read of n > 0 bytes, the address-ACK(read) transition
clears acknowledge-enable exactly when one byte remains (setting it
otherwise); each data-received transition stores the arrived byte at
the cursor, decrements the remaining count and clears
acknowledge-enable exactly when the decremented count is 1; and a full
run over n data events leaves the first n buffer cells equal to the
supplied bytes in arrival order, with status COMPLETE and remaining
count 0. -/
theorem read_buffer_order_and_ack_discipline
    (s t : I2CState) (a n d b : Nat) (buf bytes : List Nat)
    (hn : 0 < n) (hn2 : n < 256) (hlen : bytes.length = n)
    (hbuf : n ≤ buf.length) (hbytes : ∀ x ∈ bytes, x < 256)
    (ht1 : 0 < t.nBytes) (ht2 : t.nBytes < 256) :
    (twiStep (GetI2C s a n buf) TW_MR_SLA_ACK d).2 =
      (if n = 1 then HWAction.clearAck else HWAction.setAck) ::
        [HWAction.step] ∧
    (twiStep t TW_MR_DATA_ACK b).1.Buffer =
      t.Buffer.set t.BufPos (b % 256) ∧
    (twiStep t TW_MR_DATA_ACK b).1.nBytes = t.nBytes - 1 ∧
    (HWAction.clearAck ∈ (twiStep t TW_MR_DATA_ACK b).2 ↔
      t.nBytes - 1 = 1) ∧
    (twiRun (GetI2C s a n buf)
      ((TW_MR_SLA_ACK, d) ::
        bytes.map fun x => (TW_MR_DATA_ACK, x))).Buffer.take n = bytes ∧
    (twiRun (GetI2C s a n buf)
      ((TW_MR_SLA_ACK, d) ::
        bytes.map fun x => (TW_MR_DATA_ACK, x))).Status =
      I2C_STATUS.COMPLETE ∧
    (twiRun (GetI2C s a n buf)
      ((TW_MR_SLA_ACK, d) ::
        bytes.map fun x => (TW_MR_DATA_ACK, x))).nBytes = 0 := by
  have hmod : n % 256 = n := Nat.mod_eq_of_lt hn2
  have hd : dec8 t.nBytes = t.nBytes - 1 := by unfold dec8; omega
  have hstate : (twiStep (GetI2C s a n buf) TW_MR_SLA_ACK d).1 =
      GetI2C s a n buf := by
    by_cases h1 : n = 1 <;>
      simp [twiStep, GetI2C, TW_MR_SLA_ACK, TW_START, TW_REP_START,
        TW_MT_SLA_ACK, TW_MT_DATA_ACK, TW_MT_SLA_NACK, TW_MR_SLA_NACK,
        TW_MT_DATA_NACK, TW_ARB_LOST, hmod, h1, hn.ne']
  have hrun := mrDataRun bytes (GetI2C s a n buf)
    (by simp [GetI2C, hmod, hlen]) (by omega) (by omega) hbytes
  have hrun2 : twiRun (GetI2C s a n buf)
      ((TW_MR_SLA_ACK, d) :: bytes.map fun x => (TW_MR_DATA_ACK, x)) =
      { GetI2C s a n buf with
        Buffer := writeAt buf 0 bytes,
        BufPos := bytes.length,
        nBytes := 0,
        Status := I2C_STATUS.COMPLETE } := by
    rw [twiRun, hstate, hrun]
    simp [GetI2C]
  have hwa : writeAt buf 0 bytes = bytes ++ buf.drop bytes.length := by
    have := writeAt_eq bytes buf 0 (by omega)
    simpa using this
  refine ⟨?_, ?_, ?_, ?_, ?_, ?_, ?_⟩
  · by_cases h1 : n = 1 <;>
      simp [twiStep, GetI2C, TW_MR_SLA_ACK, TW_START, TW_REP_START,
        TW_MT_SLA_ACK, TW_MT_DATA_ACK, TW_MT_SLA_NACK, TW_MR_SLA_NACK,
        TW_MT_DATA_NACK, TW_ARB_LOST, hmod, h1, hn.ne']
  · by_cases hz : t.nBytes - 1 = 0 <;> by_cases h1 : t.nBytes - 1 = 1 <;>
      simp [twiStep, TW_MR_DATA_ACK, TW_START, TW_REP_START, TW_MT_SLA_ACK,
        TW_MT_DATA_ACK, TW_MT_SLA_NACK, TW_MR_SLA_NACK, TW_MT_DATA_NACK,
        TW_ARB_LOST, TW_MR_SLA_ACK, hd, hz, h1]
  · by_cases hz : t.nBytes - 1 = 0 <;> by_cases h1 : t.nBytes - 1 = 1 <;>
      simp [twiStep, TW_MR_DATA_ACK, TW_START, TW_REP_START, TW_MT_SLA_ACK,
        TW_MT_DATA_ACK, TW_MT_SLA_NACK, TW_MR_SLA_NACK, TW_MT_DATA_NACK,
        TW_ARB_LOST, TW_MR_SLA_ACK, hd, hz, h1]
  · by_cases hz : t.nBytes - 1 = 0 <;> by_cases h1 : t.nBytes - 1 = 1 <;>
      simp [twiStep, TW_MR_DATA_ACK, TW_START, TW_REP_START, TW_MT_SLA_ACK,
        TW_MT_DATA_ACK, TW_MT_SLA_NACK, TW_MR_SLA_NACK, TW_MT_DATA_NACK,
        TW_ARB_LOST, TW_MR_SLA_ACK, hd, hz, h1]
  · rw [hrun2]
    show (writeAt buf 0 bytes).take n = bytes
    rw [hwa, ← hlen, List.take_left]
  · rw [hrun2]
  · rw [hrun2]

/-- C1 witness: a three-byte read from a concrete initial state and a
data event on a descriptor with two bytes remaining. -/
theorem read_buffer_order_and_ack_discipline_witness :
    (twiStep (GetI2C sampleState 0x50 3 [0, 0, 0]) TW_MR_SLA_ACK 0).2 =
      (if 3 = 1 then HWAction.clearAck else HWAction.setAck) ::
        [HWAction.step] ∧
    (twiStep sampleWrite TW_MR_DATA_ACK 0x44).1.Buffer =
      sampleWrite.Buffer.set sampleWrite.BufPos (0x44 % 256) ∧
    (twiStep sampleWrite TW_MR_DATA_ACK 0x44).1.nBytes =
      sampleWrite.nBytes - 1 ∧
    (HWAction.clearAck ∈ (twiStep sampleWrite TW_MR_DATA_ACK 0x44).2 ↔
      sampleWrite.nBytes - 1 = 1) ∧
    (twiRun (GetI2C sampleState 0x50 3 [0, 0, 0])
      ((TW_MR_SLA_ACK, 0) ::
        [0x10, 0x20, 0x30].map fun x => (TW_MR_DATA_ACK, x))).Buffer.take 3 =
      [0x10, 0x20, 0x30] ∧
    (twiRun (GetI2C sampleState 0x50 3 [0, 0, 0])
      ((TW_MR_SLA_ACK, 0) ::
        [0x10, 0x20, 0x30].map fun x => (TW_MR_DATA_ACK, x))).Status =
      I2C_STATUS.COMPLETE ∧
    (twiRun (GetI2C sampleState 0x50 3 [0, 0, 0])
      ((TW_MR_SLA_ACK, 0) ::
        [0x10, 0x20, 0x30].map fun x => (TW_MR_DATA_ACK, x))).nBytes = 0 :=
  read_buffer_order_and_ack_discipline sampleState sampleWrite 0x50 3 0 0x44
    [0, 0, 0] [0x10, 0x20, 0x30] (by decide) (by decide) (by decide)
    (by decide) (by decide) (by decide) (by decide)
